import Mathlib

/-!
# Verification of `braindecode/models/eegresnet.py`

A shallow embedding of the EEGResNet model construction and of the
`_ResidualBlock` forward computation, with theorems settling the claims
about the specification.

Modelling conventions:
* A 4-dimensional tensor (batch, channels, time, width) is a nested list of
  rationals.  Torch float arithmetic is modelled over `ℚ`.
* Convolution / batch-norm / nonlinearity modules appearing only as opaque
  stages of the residual forward pass are modelled as arbitrary functions on
  tensors; the parts of the computation the claims are about (padding,
  concatenation, addition, ordering of stages) are modelled concretely.
* Python `int` arithmetic is `ℤ` (or `ℕ` where the source values are
  manifestly non-negative); Python `//` on ints is floor division
  (`Int.fdiv`); `int(1.5 * x)` for the (even, moderate) values arising here
  is exactly `3 * x / 2`.
* A Python `assert` is modelled by returning `Except.error` from the
  construction function.
-/

set_option autoImplicit false

namespace EEGResNetModel

/-! ## Tensors -/

/-- A rank-4 tensor (batch, channel, time, width) as nested lists. -/
abbrev Tensor4 : Type := List (List (List (List ℚ)))

/-- `x.shape[2]` of a (rectangular) rank-4 tensor. -/
def dim2 (x : Tensor4) : ℕ := ((x.headD []).headD []).length

/-- `x.shape[3]` of a (rectangular) rank-4 tensor. -/
def dim3 (x : Tensor4) : ℕ := (((x.headD []).headD []).headD []).length

/-- Elementwise addition of two rank-4 tensors of equal shape
(`x + stack_2` in the source). -/
def addT (a b : Tensor4) : Tensor4 :=
  List.zipWith (fun p q =>
    List.zipWith (fun r s =>
      List.zipWith (fun u v => List.zipWith (· + ·) u v) r s) p q) a b

/-- `x.new_zeros((x.shape[0], c, x.shape[2], x.shape[3]))`: a zero tensor
with `x`'s batch size, `c` channels, and `x`'s spatial dims. -/
def newZeros4 (x : Tensor4) (c : ℕ) : Tensor4 :=
  List.replicate x.length
    (List.replicate c (List.replicate (dim2 x) (List.replicate (dim3 x) (0 : ℚ))))

/-- `torch.cat((a, b, c), dim=1)`: concatenation along the channel axis of
three tensors with equal batch size. -/
def cat1 (a b c : Tensor4) : Tensor4 :=
  List.zipWith (· ++ ·) a (List.zipWith (· ++ ·) b c)

/-! ## `_ResidualBlock.forward`

The convolutions, batch norms and the nonlinearity are opaque tensor maps
here: the claims about `forward` concern the order of the stages and the
channel-padding of the skip path, not the numerics inside the modules. -/

/-- The body of `_ResidualBlock.forward` (eegresnet.py lines 353-362),
translated statement by statement.  `nPadChans` is the value
`self.n_pad_chans = out_num_filters - in_filters` stored by `__init__`;
`//` in `zeros_for_padding`'s shape is Python floor division. -/
def residualBlockForward (conv1 bn1 conv2 bn2 nonlin : Tensor4 → Tensor4)
    (nPadChans : ℤ) (x : Tensor4) : Tensor4 :=
  let stack1 := nonlin (bn1 (conv1 x))
  let stack2 := bn2 (conv2 stack1)  -- next nonlin after sum
  let x2 :=
    if nPadChans ≠ 0 then
      let zerosForPadding := newZeros4 x (nPadChans.fdiv 2).toNat
      cat1 zerosForPadding x zerosForPadding
    else x
  nonlin (addT x2 stack2)

/-- The skip path of the spec: the input, channel-padded when the block was
constructed with `out_num_filters ≠ in_filters` (same padding expression as
the source's `forward`). -/
def residualSkip (nPadChans : ℤ) (x : Tensor4) : Tensor4 :=
  if nPadChans ≠ 0 then
    let zerosForPadding := newZeros4 x (nPadChans.fdiv 2).toNat
    cat1 zerosForPadding x zerosForPadding
  else x

/-- The spec's intermediate `B`: second convolution of the activated first
stack, batch-normalized, with no nonlinearity applied. -/
def residualSpecB (conv1 bn1 conv2 bn2 nonlin : Tensor4 → Tensor4)
    (x : Tensor4) : Tensor4 :=
  bn2 (conv2 (nonlin (bn1 (conv1 x))))

/-! ## Construction-time model

`EEGResNet.__init__` assembles a fixed sequence of modules.  The model below
records, for each configurable layer, exactly the arguments the source
passes to the torch constructors, and turns each Python `assert` into an
`Except.error`. -/

/-- An activation module class (the `activation` constructor argument;
`nn.ELU` is the default both of `EEGResNet` and of `_ResidualBlock`). -/
inductive Act : Type
  | elu
  | relu
  | identity
  deriving DecidableEq, Repr

/-- The `final_pool_length` argument: the string `"auto"` or an integer. -/
inductive PoolLength : Type
  | auto
  | fixed (n : ℕ)
  deriving DecidableEq, Repr

/-- The arguments `EEGResNet.__init__` computes for one
`_ResidualBlock(in, out, dilation)` call: block index, layer index within
the block, `in_filters`, `out_num_filters`, and the temporal and channel
components of `cur_dilation`. -/
structure ResSpec where
  iBlock : ℕ
  iLayer : ℕ
  inF : ℕ
  outF : ℕ
  dilT : ℕ
  dilC : ℕ
  deriving DecidableEq, Repr

/-- The per-residual-unit spec list of `EEGResNet.__init__` (eegresnet.py
lines 139-244), together with the final `cur_dilation[0]` (used by the
pooling stage) and the final `n_cur_filters` (used by the classifier).
`cur_dilation` starts at `np.array([1, 1])` and `cur_dilation[0] *= 2`
happens at the head of each of blocks 2-7; `n_out_filters` is
`int(2 * n_cur_filters)` at block 2 and `int(1.5 * n_cur_filters)` at
block 3 (`3 * n / 2` exactly, `n` being even there).  Python's
`range(1, n_layers_per_block)` supplies layer indices `i + 1` for
`i < n_layers_per_block - 1`. -/
def resPlan (nFirst nLayers : ℕ) : List ResSpec × ℕ × ℕ :=
  let d1 := 1
  let nCur1 := nFirst
  let block1 := (List.range nLayers).map fun i =>
    ⟨1, i, nCur1, nCur1, d1, 1⟩
  let d2 := d1 * 2
  let nOut2 := 2 * nCur1
  let block2 := ⟨2, 0, nCur1, nOut2, d2, 1⟩ ::
    ((List.range (nLayers - 1)).map fun i => ⟨2, i + 1, nOut2, nOut2, d2, 1⟩)
  let d3 := d2 * 2
  let nOut3 := 3 * nOut2 / 2
  let block3 := ⟨3, 0, nOut2, nOut3, d3, 1⟩ ::
    ((List.range (nLayers - 1)).map fun i => ⟨3, i + 1, nOut3, nOut3, d3, 1⟩)
  let d4 := d3 * 2
  let block4 := ⟨4, 0, nOut3, nOut3, d4, 1⟩ ::
    ((List.range (nLayers - 1)).map fun i => ⟨4, i + 1, nOut3, nOut3, d4, 1⟩)
  let d5 := d4 * 2
  let block5 := ⟨5, 0, nOut3, nOut3, d5, 1⟩ ::
    ((List.range (nLayers - 1)).map fun i => ⟨5, i + 1, nOut3, nOut3, d5, 1⟩)
  let d6 := d5 * 2
  let block6 := ⟨6, 0, nOut3, nOut3, d6, 1⟩ ::
    ((List.range (nLayers - 1)).map fun i => ⟨6, i + 1, nOut3, nOut3, d6, 1⟩)
  let d7 := d6 * 2
  let block7 := ⟨7, 0, nOut3, nOut3, d7, 1⟩ ::
    ((List.range (nLayers - 1)).map fun i => ⟨7, i + 1, nOut3, nOut3, d7, 1⟩)
  (block1 ++ block2 ++ block3 ++ block4 ++ block5 ++ block6 ++ block7,
    d7, nOut3)

/-- The residual-unit argument lists, in module-registration order. -/
def resUnitSpecs (nFirst nLayers : ℕ) : List ResSpec :=
  (resPlan nFirst nLayers).1

/-- `cur_dilation[0]` after the block loop: the dilation the pooling stage
receives when `final_pool_length` is not `"auto"`. -/
def finalDilationT (nFirst nLayers : ℕ) : ℕ :=
  (resPlan nFirst nLayers).2.1

/-- `n_cur_filters` after the block loop: the classifier's input channels. -/
def finalNFilters (nFirst nLayers : ℕ) : ℕ :=
  (resPlan nFirst nLayers).2.2

/-- `time_padding` of `_ResidualBlock.__init__` after the halving:
`int((filter_time_length - 1) * dilation[0]) // 2`. -/
def timePadding (filterTimeLength dilT : ℕ) : ℕ :=
  (filterTimeLength - 1) * dilT / 2

/-- A constructed `_ResidualBlock`: the data its `__init__` stores that the
forward pass and the claims depend on. -/
structure ResUnitCfg where
  inF : ℕ
  outF : ℕ
  dilT : ℕ
  dilC : ℕ
  filterTimeLength : ℕ
  timePad : ℕ
  nPadChans : ℤ
  bnMomentum : ℚ
  bnEps : ℚ
  nonlin : Act
  deriving DecidableEq, Repr

/-- `_ResidualBlock.__init__` (eegresnet.py lines 301-351).  The two
`assert` statements become errors; the remaining, keyword-only parameters
keep their source defaults (`filter_time_length=3`, `nonlinearity=nn.ELU`,
`batch_norm_alpha=0.1`, `batch_norm_epsilon=1e-4`) because `EEGResNet`
never passes them. -/
def mkResidualBlock (inF outF dilT dilC : ℕ)
    (filterTimeLength : ℕ := 3) (nonlinearity : Act := .elu)
    (batchNormAlpha : ℚ := 1/10) (batchNormEpsilon : ℚ := 1/10000) :
    Except String ResUnitCfg :=
  let timePadding0 := (filterTimeLength - 1) * dilT
  if timePadding0 % 2 ≠ 0 then
    .error "time padding must be even"
  else if ((outF : ℤ) - (inF : ℤ)) % 2 ≠ 0 then
    .error "Need even number of extra channels in order to be able to pad correctly"
  else
    .ok { inF := inF, outF := outF, dilT := dilT, dilC := dilC,
          filterTimeLength := filterTimeLength,
          timePad := timePadding0 / 2,
          nPadChans := (outF : ℤ) - (inF : ℤ),
          bnMomentum := batchNormAlpha, bnEps := batchNormEpsilon,
          nonlin := nonlinearity }

/-- Construct every residual unit in order, propagating the first error. -/
def buildResUnits : List ResSpec → Except String (List ResUnitCfg)
  | [] => .ok []
  | s :: rest =>
    match mkResidualBlock s.inF s.outF s.dilT s.dilC with
    | .error e => .error e
    | .ok u =>
      match buildResUnits rest with
      | .error e => .error e
      | .ok us => .ok (u :: us)

/-- The arguments of an `nn.Conv2d` layer. -/
structure Conv2dCfg where
  inCh : ℕ
  outCh : ℕ
  kH : ℕ
  kW : ℕ
  strideH : ℕ
  strideW : ℕ
  padH : ℕ
  padW : ℕ
  hasBias : Bool
  deriving DecidableEq, Repr

/-- The `conv_time` layer (eegresnet.py lines 99-130): with
`split_first_layer`, `nn.Conv2d(1, n_first_filters, (first_filter_length, 1),
stride=1, padding=(first_filter_length // 2, 0))` (bias defaulted on);
otherwise `nn.Conv2d(n_chans, n_first_filters, ...)` with `bias=False`. -/
def convTimeCfg (splitFirstLayer : Bool) (nChans nFirstFilters ffl : ℕ) :
    Conv2dCfg :=
  if splitFirstLayer then
    { inCh := 1, outCh := nFirstFilters, kH := ffl, kW := 1,
      strideH := 1, strideW := 1, padH := ffl / 2, padW := 0,
      hasBias := true }
  else
    { inCh := nChans, outCh := nFirstFilters, kH := ffl, kW := 1,
      strideH := 1, strideW := 1, padH := ffl / 2, padW := 0,
      hasBias := false }

/-- The `conv_spat` layer (split case only):
`nn.Conv2d(n_first_filters, n_first_filters, (1, n_chans), stride=(1, 1),
bias=False)`. -/
def convSpatCfg (nChans nFirstFilters : ℕ) : Conv2dCfg :=
  { inCh := nFirstFilters, outCh := nFirstFilters, kH := 1, kW := nChans,
    strideH := 1, strideW := 1, padH := 0, padW := 0, hasBias := false }

/-- The constructor arguments of `EEGResNet` that the claims range over.
`convWeightInitFn` is omitted (it is opaque data threaded to
`_weights_init`, modelled separately). -/
structure EEGResNetCfg where
  nChans : ℕ
  nOutputs : ℕ
  nTimes : Option ℕ
  finalPoolLength : PoolLength
  nFirstFilters : ℕ
  nLayersPerBlock : ℕ
  firstFilterLength : ℕ
  activation : Act
  splitFirstLayer : Bool
  batchNormAlpha : ℚ
  batchNormEpsilon : ℚ
  deriving DecidableEq, Repr

/-- The network `EEGResNet.__init__` assembles: every configurable layer
with the arguments the source passes it.  (Plain hyperparameter attributes
the constructor stores on `self` without handing them to any layer, such as
`self.batch_norm_epsilon`, are constructor bookkeeping, not layers.) -/
structure NetDescr where
  convTime : Conv2dCfg
  convSpat : Option Conv2dCfg
  bnormEps : ℚ
  bnormMomentum : ℚ
  convNonlin : Act
  resUnits : List ResUnitCfg
  poolDilation : Option (ℕ × ℕ)
  classifierInCh : ℕ
  classifierOutCh : ℕ
  deriving DecidableEq, Repr

/-- `EEGResNet.__init__` (eegresnet.py lines 50-279).  The two asserts at
lines 78-80 come first; each `_ResidualBlock` construction can fail in turn;
`bnorm` is built with the hardcoded `eps=1e-5`; `mean_pool` receives
`cur_dilation` only in the non-`"auto"` case. -/
def buildNet (cfg : EEGResNetCfg) : Except String NetDescr :=
  if cfg.finalPoolLength = PoolLength.auto ∧ cfg.nTimes = none then
    .error "self.n_times is not None"
  else if cfg.firstFilterLength % 2 ≠ 1 then
    .error "first_filter_length % 2 == 1"
  else
    let plan := resPlan cfg.nFirstFilters cfg.nLayersPerBlock
    match buildResUnits plan.1 with
    | .error e => .error e
    | .ok units =>
      .ok { convTime := convTimeCfg cfg.splitFirstLayer cfg.nChans
              cfg.nFirstFilters cfg.firstFilterLength,
            convSpat := if cfg.splitFirstLayer then
                some (convSpatCfg cfg.nChans cfg.nFirstFilters)
              else none,
            bnormEps := 1/100000,
            bnormMomentum := cfg.batchNormAlpha,
            convNonlin := cfg.activation,
            resUnits := units,
            poolDilation :=
              match cfg.finalPoolLength with
              | .auto => none
              | .fixed _ => some (plan.2.1, 1),
            classifierInCh := plan.2.2,
            classifierOutCh := cfg.nOutputs }

/-! ## Temporal convolution length

Both convolutions of a residual block have kernel `(filter_time_length, 1)`,
stride `(1, 1)`, dilation `(dilation[0], dilation[1])` and padding
`(time_padding, 0)`: along the width axis they are pointwise, so on the time
axis each acts as the 1-D dilated cross-correlation below (torch semantics:
pad both sides, then one output per window position, output length
`L + 2p - d*(k-1)` at stride 1). -/

/-- Zero-pad a 1-D signal with `p` zeros on each side. -/
def pad1d (p : ℕ) (xs : List ℚ) : List ℚ :=
  List.replicate p 0 ++ xs ++ List.replicate p 0

/-- The dilated window product at output position `i`. -/
def dotAt (w : List ℚ) (d : ℕ) (ys : List ℚ) (i : ℕ) : ℚ :=
  (List.range w.length).foldl (fun acc j => acc + w.getD j 0 * ys.getD (i + j * d) 0) 0

/-- 1-D cross-correlation with weights `w`, dilation `d`, symmetric padding
`p`, stride 1 (the temporal action of the block's `nn.Conv2d`). -/
def conv1d (w : List ℚ) (d p : ℕ) (xs : List ℚ) : List ℚ :=
  let ys := pad1d p xs
  let outLen := ys.length + 1 - (d * (w.length - 1) + 1)
  (List.range outLen).map (dotAt w d ys)

/-! ## Weight initialization

`EEGResNet._weights_init` (eegresnet.py lines 281-293) is applied by
`self.apply(...)` to every module of the model.  A module is its class name
plus its (flattened) weight and optional bias; the initializer is an opaque
weight transformer. -/

/-- The torch module classes occurring in this file's model. -/
inductive ModuleClass : Type
  | ensure4d
  | rearrange
  | conv2d
  | batchNorm2d
  | elu
  | residualBlock
  | adaptiveAvgPool2d
  | avgPool2dWithConv
  | sequential
  | squeezeFinalOutput
  | eegResNet
  deriving DecidableEq, Repr

/-- `module.__class__.__name__`. -/
def className : ModuleClass → String
  | .ensure4d => "Ensure4d"
  | .rearrange => "Rearrange"
  | .conv2d => "Conv2d"
  | .batchNorm2d => "BatchNorm2d"
  | .elu => "ELU"
  | .residualBlock => "_ResidualBlock"
  | .adaptiveAvgPool2d => "AdaptiveAvgPool2d"
  | .avgPool2dWithConv => "AvgPool2dWithConv"
  | .sequential => "Sequential"
  | .squeezeFinalOutput => "SqueezeFinalOutput"
  | .eegResNet => "EEGResNet"

/-- Python's `sub in s` on strings. -/
def strContains (s sub : String) : Bool :=
  s.toList.tails.any fun t => sub.toList.isPrefixOf t

/-- A module as `_weights_init` sees it: class, weight tensor (flattened),
optional bias tensor. -/
structure PModule where
  cls : ModuleClass
  weight : List ℚ
  bias : Option (List ℚ)
  deriving DecidableEq, Repr

/-- `EEGResNet._weights_init(module, conv_weight_init_fn)`:
`if "Conv" in classname and classname != "AvgPool2dWithConv"` initialize the
weight with the supplied function and zero the bias if present;
`elif "BatchNorm" in classname` set the weight to ones and the bias to
zeros (`init.constant_` keeps the shape). -/
def weightsInit (f : List ℚ → List ℚ) (m : PModule) : PModule :=
  let cn := className m.cls
  if strContains cn "Conv" ∧ cn ≠ "AvgPool2dWithConv" then
    { m with weight := f m.weight,
             bias := m.bias.map fun b => List.replicate b.length 0 }
  else if strContains cn "BatchNorm" then
    { m with weight := List.replicate m.weight.length 1,
             bias := m.bias.map fun b => List.replicate b.length 0 }
  else m

/-- `self.apply(lambda module: self._weights_init(module, fn))`: the
initializer visits every module of the model. -/
def initAllModules (f : List ℚ → List ℚ) (ms : List PModule) : List PModule :=
  ms.map (weightsInit f)

/-! ## Helper lemmas -/

/-- Concatenating one fixed channel list on both sides of every batch item. -/
theorem cat1_replicate (z0 : List (List (List ℚ))) :
    ∀ x : Tensor4,
      cat1 (List.replicate x.length z0) x (List.replicate x.length z0) =
        x.map fun b => z0 ++ b ++ z0
  | [] => rfl
  | b :: t => by
    simpa [cat1, List.replicate_succ, List.append_assoc] using
      congrArg (List.cons (z0 ++ b ++ z0)) (cat1_replicate z0 t)

/-- For a nonnegative even pad count `2 * k`, the Python `// 2` of the
stored `n_pad_chans` is `k`. -/
theorem fdiv_two_mul (k : ℕ) : (((2 * k : ℕ) : ℤ).fdiv 2).toNat = k := by
  rw [Int.fdiv_eq_ediv _ (by norm_num)]
  push_cast
  rw [Int.mul_ediv_cancel_left _ (by norm_num)]
  exact Int.toNat_natCast k

/-! ## Claims -/

/-- C1: for every input tensor `x`, `_ResidualBlock.forward` computes
`nonlinearity(skip(x) + B)` with `B = bn2(conv2(nonlinearity(bn1(conv1 x))))`
and `skip(x)` the (possibly channel-padded) input; no nonlinearity touches
`B` before the additive skip, only after the sum. -/
theorem residual_forward_is_nonlin_of_skip_add_B
    (conv1 bn1 conv2 bn2 nonlin : Tensor4 → Tensor4) (nPadChans : ℤ)
    (x : Tensor4) :
    residualBlockForward conv1 bn1 conv2 bn2 nonlin nPadChans x =
      nonlin (addT (residualSkip nPadChans x)
        (residualSpecB conv1 bn1 conv2 bn2 nonlin x)) := rfl

/-- C2: the skip path of a residual block whose stored channel delta is
`cout - cin`: with `cout = cin` the input passes unchanged; with
`cout = cin + 2 * k`, `k > 0`, exactly `k` all-zero channels are
concatenated on each side of every batch item, so every batch item of the
skip tensor has exactly `cout` channels. -/
theorem residual_skip_padding (cin cout : ℕ) (x : Tensor4)
    (hch : ∀ item ∈ x, item.length = cin) :
    (cout = cin → residualSkip ((cout : ℤ) - (cin : ℤ)) x = x) ∧
    (∀ k : ℕ, 0 < k → cout = cin + 2 * k →
      residualSkip ((cout : ℤ) - (cin : ℤ)) x =
        cat1 (newZeros4 x k) x (newZeros4 x k) ∧
      (∀ bz ∈ newZeros4 x k, bz.length = k ∧
        ∀ ch ∈ bz, ∀ row ∈ ch, ∀ v ∈ row, v = 0) ∧
      (∀ item ∈ residualSkip ((cout : ℤ) - (cin : ℤ)) x,
        item.length = cout)) := by
  constructor
  · intro h
    subst h
    simp [residualSkip]
  · intro k hk hco
    subst hco
    have hd : ((cin + 2 * k : ℕ) : ℤ) - (cin : ℤ) = ((2 * k : ℕ) : ℤ) := by
      push_cast; ring
    have hne : ((2 * k : ℕ) : ℤ) ≠ 0 := by
      push_cast; omega
    have hskip : residualSkip (((cin + 2 * k : ℕ) : ℤ) - (cin : ℤ)) x =
        cat1 (newZeros4 x k) x (newZeros4 x k) := by
      rw [residualSkip, hd, if_pos hne, fdiv_two_mul]
    refine ⟨hskip, ?_, ?_⟩
    · intro bz hbz
      rw [newZeros4, List.mem_replicate] at hbz
      rw [hbz.2]
      refine ⟨List.length_replicate .., ?_⟩
      intro ch hch' row hrow v hv
      rw [List.mem_replicate] at hch'
      rw [hch'.2, List.mem_replicate] at hrow
      rw [hrow.2, List.mem_replicate] at hv
      exact hv.2
    · intro item hitem
      rw [hskip] at hitem
      have hz : newZeros4 x k = List.replicate x.length
          (List.replicate k (List.replicate (dim2 x)
            (List.replicate (dim3 x) (0 : ℚ)))) := rfl
      rw [hz, cat1_replicate, List.mem_map] at hitem
      obtain ⟨b, hb, rfl⟩ := hitem
      have := hch b hb
      simp [this]
      omega

theorem residual_skip_padding_witness :
    (∀ item ∈ ([[[[(1 : ℚ)]]]] : Tensor4), item.length = 1) ∧
    (((3 : ℕ) = (1 : ℕ) →
        residualSkip (((3 : ℕ) : ℤ) - ((1 : ℕ) : ℤ)) [[[[(1 : ℚ)]]]] =
          [[[[(1 : ℚ)]]]]) ∧
      (∀ k : ℕ, 0 < k → (3 : ℕ) = 1 + 2 * k →
        residualSkip (((3 : ℕ) : ℤ) - ((1 : ℕ) : ℤ)) [[[[(1 : ℚ)]]]] =
          cat1 (newZeros4 [[[[(1 : ℚ)]]]] k) [[[[(1 : ℚ)]]]]
            (newZeros4 [[[[(1 : ℚ)]]]] k) ∧
        (∀ bz ∈ newZeros4 [[[[(1 : ℚ)]]]] k, bz.length = k ∧
          ∀ ch ∈ bz, ∀ row ∈ ch, ∀ v ∈ row, v = 0) ∧
        (∀ item ∈ residualSkip (((3 : ℕ) : ℤ) - ((1 : ℕ) : ℤ)) [[[[(1 : ℚ)]]]],
          item.length = 3))) :=
  ⟨by decide, residual_skip_padding 1 3 [[[[(1 : ℚ)]]]] (by decide)⟩

/-- C3: the channel counts of the residual units `EEGResNet.__init__`
constructs: block 1 keeps `n_first_filters`; block 2's first unit doubles;
block 3's first unit multiplies by 1.5 (`int(1.5 * (2 * n))` being
`3 * (2 * n) / 2`); blocks 4-7 keep the count constant; and in the
channel-changing blocks 2 and 3 every unit after the first has
input = output = the new count. -/
theorem res_channel_progression (nFirst nLayers : ℕ) :
    ∀ u ∈ resUnitSpecs nFirst nLayers,
      (u.iBlock = 1 → u.inF = nFirst ∧ u.outF = nFirst) ∧
      (u.iBlock = 2 ∧ u.iLayer = 0 →
        u.inF = nFirst ∧ u.outF = 2 * nFirst) ∧
      (u.iBlock = 3 ∧ u.iLayer = 0 →
        u.inF = 2 * nFirst ∧ u.outF = 3 * (2 * nFirst) / 2) ∧
      (4 ≤ u.iBlock → u.inF = 3 * (2 * nFirst) / 2 ∧ u.outF = u.inF) ∧
      (u.iBlock = 2 ∧ u.iLayer ≠ 0 →
        u.inF = 2 * nFirst ∧ u.outF = 2 * nFirst) ∧
      (u.iBlock = 3 ∧ u.iLayer ≠ 0 →
        u.inF = 3 * (2 * nFirst) / 2 ∧ u.outF = 3 * (2 * nFirst) / 2) := by
  simp only [resUnitSpecs, resPlan, List.forall_mem_append, List.forall_mem_cons,
    List.forall_mem_map, List.mem_range]
  norm_num

theorem res_channel_progression_witness :
    ((2 : ℕ) = 1 → (20 : ℕ) = 20 ∧ (40 : ℕ) = 20) ∧
    ((2 : ℕ) = 2 ∧ (0 : ℕ) = 0 → (20 : ℕ) = 20 ∧ (40 : ℕ) = 2 * 20) ∧
    ((2 : ℕ) = 3 ∧ (0 : ℕ) = 0 →
      (20 : ℕ) = 2 * 20 ∧ (40 : ℕ) = 3 * (2 * 20) / 2) ∧
    (4 ≤ (2 : ℕ) → (20 : ℕ) = 3 * (2 * 20) / 2 ∧ (40 : ℕ) = 20) ∧
    ((2 : ℕ) = 2 ∧ (0 : ℕ) ≠ 0 → (20 : ℕ) = 2 * 20 ∧ (40 : ℕ) = 2 * 20) ∧
    ((2 : ℕ) = 3 ∧ (0 : ℕ) ≠ 0 →
      (20 : ℕ) = 3 * (2 * 20) / 2 ∧ (40 : ℕ) = 3 * (2 * 20) / 2) :=
  res_channel_progression 20 2 ⟨2, 0, 20, 40, 2, 1⟩ (by decide)

/-- C4, counterexample: with the default configuration the dilation the
last block (block 7) and the pooling stage receive is `64`, not `32` — the
source doubles `cur_dilation[0]` six times, not five. -/
theorem final_dilation_not_32 :
    finalDilationT 20 2 ≠ 32 ∧
    ∃ u ∈ resUnitSpecs 20 2, u.iBlock = 7 ∧ u.dilT ≠ 32 := by decide

/-- C4, amended: the temporal dilation starts at 1 for block 1 and doubles
at each of the six block boundaries (blocks 2-7), so block `b` runs at
dilation `2 ^ (b - 1)` and the last block and the pooling stage receive
`2 ^ 6 = 64`. -/
theorem res_dilation_doublings (nFirst nLayers : ℕ) :
    (∀ u ∈ resUnitSpecs nFirst nLayers,
      u.dilT = 2 ^ (u.iBlock - 1) ∧ u.dilC = 1 ∧
      1 ≤ u.iBlock ∧ u.iBlock ≤ 7) ∧
    (∀ u ∈ resUnitSpecs nFirst nLayers, u.iBlock = 7 → u.dilT = 64) ∧
    finalDilationT nFirst nLayers = 64 ∧ (64 : ℕ) = 2 ^ 6 := by
  refine ⟨?_, ?_, rfl, rfl⟩ <;>
    simp only [resUnitSpecs, resPlan, List.forall_mem_append,
      List.forall_mem_cons, List.forall_mem_map, List.mem_range] <;>
    norm_num

theorem res_dilation_doublings_witness :
    (∀ u ∈ resUnitSpecs 20 2,
      u.dilT = 2 ^ (u.iBlock - 1) ∧ u.dilC = 1 ∧
      1 ≤ u.iBlock ∧ u.iBlock ≤ 7) ∧
    (∀ u ∈ resUnitSpecs 20 2, u.iBlock = 7 → u.dilT = 64) ∧
    finalDilationT 20 2 = 64 ∧ (64 : ℕ) = 2 ^ 6 :=
  res_dilation_doublings 20 2

/-- Output length of the 1-D dilated convolution (torch's formula at
stride 1). -/
theorem conv1d_length (w : List ℚ) (d p : ℕ) (xs : List ℚ) :
    (conv1d w d p xs).length =
      p + (xs.length + p) + 1 - (d * (w.length - 1) + 1) := by
  simp [conv1d, pad1d]

/-- C5: for every dilation `d` the block's assert admits and every input
temporal length, both convolutions of a residual block (kernel length `k`,
stride 1, padding `(k - 1) * d / 2` per side) preserve the temporal
length: the output length `L + 2p - d*(k-1)` equals `L`. -/
theorem res_conv_preserves_time_length (k d : ℕ) (hk : (k - 1) * d % 2 = 0)
    (w1 w2 : List ℚ) (hw1 : w1.length = k) (hw2 : w2.length = k)
    (xs : List ℚ) :
    (conv1d w1 d (timePadding k d) xs).length =
      xs.length + 2 * timePadding k d - d * (k - 1) ∧
    (conv1d w1 d (timePadding k d) xs).length = xs.length ∧
    (conv1d w2 d (timePadding k d) (conv1d w1 d (timePadding k d) xs)).length
      = xs.length := by
  have h2 : 2 * timePadding k d = (k - 1) * d := by
    rw [timePadding, Nat.mul_div_cancel' (Nat.dvd_of_mod_eq_zero hk)]
  have hlen : ∀ w : List ℚ, w.length = k → ∀ ys : List ℚ,
      (conv1d w d (timePadding k d) ys).length = ys.length := by
    intro w hw ys
    rw [conv1d_length, hw, mul_comm d (k - 1)]
    omega
  refine ⟨?_, hlen w1 hw1 xs, ?_⟩
  · rw [conv1d_length, hw1, mul_comm d (k - 1)]
    omega
  · rw [hlen w2 hw2, hlen w1 hw1]

theorem res_conv_preserves_time_length_witness :
    ((3 : ℕ) - 1) * 2 % 2 = 0 ∧
    ((conv1d [1, 0, -1] 2 (timePadding 3 2) [5, 7, 9]).length =
        3 + 2 * timePadding 3 2 - 2 * (3 - 1) ∧
      (conv1d [1, 0, -1] 2 (timePadding 3 2) [5, 7, 9]).length = 3 ∧
      (conv1d [2, 1, 0] 2 (timePadding 3 2)
          (conv1d [1, 0, -1] 2 (timePadding 3 2) [5, 7, 9])).length = 3) :=
  ⟨by decide,
    res_conv_preserves_time_length 3 2 (by decide) [1, 0, -1] [2, 1, 0]
      rfl rfl [5, 7, 9]⟩

/-- `mkResidualBlock`'s first assert (`time_padding % 2 == 0`) never fires
at the default `filter_time_length = 3`, and the block construction fails
exactly when the channel delta is odd. -/
theorem mkResidualBlock_error_iff (inF outF dT dC : ℕ) :
    (∃ e, mkResidualBlock inF outF dT dC = .error e) ↔
      ((outF : ℤ) - (inF : ℤ)) % 2 ≠ 0 := by
  have htp : ((3 : ℕ) - 1) * dT % 2 = 0 := by omega
  by_cases hs : ((outF : ℤ) - (inF : ℤ)) % 2 ≠ 0 <;>
    simp [mkResidualBlock, htp, hs]

/-- A successfully constructed block keeps the source's keyword defaults
and records the spec's arguments. -/
theorem mkResidualBlock_ok_elim (a b c d : ℕ) (u : ResUnitCfg)
    (h : mkResidualBlock a b c d = .ok u) :
    u.bnEps = 1/10000 ∧ u.bnMomentum = 1/10 ∧ u.nonlin = Act.elu ∧
    u.inF = a ∧ u.outF = b ∧ u.dilT = c ∧ u.dilC = d ∧
    u.filterTimeLength = 3 ∧ u.timePad = (3 - 1) * c / 2 ∧
    u.nPadChans = (b : ℤ) - (a : ℤ) := by
  have htp : ((3 : ℕ) - 1) * c % 2 = 0 := by omega
  by_cases hs : ((b : ℤ) - (a : ℤ)) % 2 ≠ 0
  · simp [mkResidualBlock, htp, hs] at h
  · simp [mkResidualBlock, htp, hs] at h
    rw [← h]
    simp

/-- `buildResUnits` fails exactly when some unit spec has an odd channel
delta. -/
theorem buildResUnits_error_iff : ∀ l : List ResSpec,
    (∃ e, buildResUnits l = .error e) ↔
      ∃ s ∈ l, ((s.outF : ℤ) - (s.inF : ℤ)) % 2 ≠ 0
  | [] => by simp [buildResUnits]
  | s :: rest => by
    have ih := buildResUnits_error_iff rest
    by_cases hs : ((s.outF : ℤ) - (s.inF : ℤ)) % 2 ≠ 0
    · obtain ⟨e, he⟩ :=
        (mkResidualBlock_error_iff s.inF s.outF s.dilT s.dilC).mpr hs
      simp only [buildResUnits, he]
      exact ⟨fun _ => ⟨s, List.mem_cons_self s rest, hs⟩, fun _ => ⟨e, rfl⟩⟩
    · cases hu : mkResidualBlock s.inF s.outF s.dilT s.dilC with
      | error e =>
        exact absurd
          ((mkResidualBlock_error_iff s.inF s.outF s.dilT s.dilC).mp ⟨e, hu⟩) hs
      | ok u =>
        simp only [buildResUnits, hu]
        cases hrest : buildResUnits rest with
        | error e =>
          rw [hrest] at ih
          constructor
          · intro _
            obtain ⟨s', hs', hodd⟩ := ih.mp ⟨e, rfl⟩
            exact ⟨s', List.mem_cons_of_mem s hs', hodd⟩
          · intro _
            exact ⟨e, rfl⟩
        | ok us =>
          rw [hrest] at ih
          constructor
          · rintro ⟨e, he⟩
            exact absurd he (by simp)
          · rintro ⟨s', hs', hodd⟩
            rcases List.mem_cons.mp hs' with rfl | hmem
            · exact absurd hodd hs
            · obtain ⟨e, he⟩ := ih.mpr ⟨s', hmem, hodd⟩
              exact absurd he (by simp)

/-- C6: `EEGResNet` construction fails (an assert raises) iff
`first_filter_length` is even, or `final_pool_length` is `"auto"` with the
time length unknown, or some residual unit's channel delta is odd; all
three checks run at construction time, before any forward pass. -/
theorem buildNet_error_iff (cfg : EEGResNetCfg) :
    (∃ e, buildNet cfg = .error e) ↔
      (cfg.firstFilterLength % 2 = 0 ∨
       (cfg.finalPoolLength = PoolLength.auto ∧ cfg.nTimes = none) ∨
       ∃ u ∈ resUnitSpecs cfg.nFirstFilters cfg.nLayersPerBlock,
         ((u.outF : ℤ) - (u.inF : ℤ)) % 2 ≠ 0) := by
  by_cases hA : cfg.finalPoolLength = PoolLength.auto ∧ cfg.nTimes = none
  · simp only [buildNet, if_pos hA]
    exact ⟨fun _ => .inr (.inl hA), fun _ => ⟨_, rfl⟩⟩
  · by_cases hB : cfg.firstFilterLength % 2 ≠ 1
    · have hB0 : cfg.firstFilterLength % 2 = 0 := by omega
      simp only [buildNet, if_neg hA, if_pos hB]
      exact ⟨fun _ => .inl hB0, fun _ => ⟨_, rfl⟩⟩
    · have hB0 : ¬cfg.firstFilterLength % 2 = 0 := by omega
      have key := buildResUnits_error_iff
        (resPlan cfg.nFirstFilters cfg.nLayersPerBlock).1
      simp only [buildNet, if_neg hA, if_neg hB]
      cases hu : buildResUnits (resPlan cfg.nFirstFilters cfg.nLayersPerBlock).1 with
      | error e =>
        rw [hu] at key
        constructor
        · intro _
          exact .inr (.inr (key.mp ⟨e, rfl⟩))
        · intro _
          exact ⟨e, rfl⟩
      | ok us =>
        rw [hu] at key
        constructor
        · rintro ⟨e, he⟩
          exact absurd he (by simp)
        · rintro (h | h | h)
          · exact absurd h hB0
          · exact absurd h hA
          · obtain ⟨e, he⟩ := key.mpr h
            exact absurd he (by simp)

theorem buildNet_error_iff_witness :
    (∃ e, buildNet ⟨22, 4, some 1000, PoolLength.auto, 20, 2, 3, Act.elu,
        true, 1/10, 1/10000⟩ = .error e) ↔
      ((3 : ℕ) % 2 = 0 ∨
       (PoolLength.auto = PoolLength.auto ∧ (some 1000 : Option ℕ) = none) ∨
       ∃ u ∈ resUnitSpecs 20 2, ((u.outF : ℤ) - (u.inF : ℤ)) % 2 ≠ 0) :=
  buildNet_error_iff ⟨22, 4, some 1000, PoolLength.auto, 20, 2, 3, Act.elu,
    true, 1/10, 1/10000⟩

/-- C7, counterexample: with `split_first_layer` and the default
`n_first_filters = 20`, the temporal-only first convolution takes 1 input
channel (the post-dimshuffle singleton axis), not `n_first_filters`: its
input and output channel counts differ. -/
theorem conv_time_in_channels_ne_out :
    (convTimeCfg true 22 20 3).inCh = 1 ∧
    (convTimeCfg true 22 20 3).outCh = 20 ∧
    (convTimeCfg true 22 20 3).inCh ≠ (convTimeCfg true 22 20 3).outCh := by
  decide

/-- C7, amended: when `split_first_layer` is enabled the temporal-only first
convolution has input channel count 1 and output channel count
`n_first_filters`, kernel `(first_filter_length, 1)`, stride 1, and
temporal padding `first_filter_length // 2` (no width padding). -/
theorem conv_time_split_config (nChans nFirstFilters ffl : ℕ) :
    (convTimeCfg true nChans nFirstFilters ffl).inCh = 1 ∧
    (convTimeCfg true nChans nFirstFilters ffl).outCh = nFirstFilters ∧
    (convTimeCfg true nChans nFirstFilters ffl).kH = ffl ∧
    (convTimeCfg true nChans nFirstFilters ffl).kW = 1 ∧
    (convTimeCfg true nChans nFirstFilters ffl).strideH = 1 ∧
    (convTimeCfg true nChans nFirstFilters ffl).strideW = 1 ∧
    (convTimeCfg true nChans nFirstFilters ffl).padH = ffl / 2 ∧
    (convTimeCfg true nChans nFirstFilters ffl).padW = 0 := by
  simp [convTimeCfg]

/-- C8: after `self.apply(_weights_init)`, every module whose class name
contains `BatchNorm` ends with weight all ones and bias all zeros, and
every module whose class name contains `Conv` — other than
`AvgPool2dWithConv` — ends with its weight transformed by the supplied
initializer and its bias, if present, all zeros. -/
theorem weights_init_all_modules (f : List ℚ → List ℚ) (ms : List PModule)
    (m' : PModule) (hm' : m' ∈ initAllModules f ms) :
    ∃ m ∈ ms, m' = weightsInit f m ∧
      (strContains (className m.cls) "BatchNorm" = true →
        m'.weight = List.replicate m.weight.length 1 ∧
        m'.bias = m.bias.map fun b => List.replicate b.length 0) ∧
      (strContains (className m.cls) "Conv" = true →
        className m.cls ≠ "AvgPool2dWithConv" →
        m'.weight = f m.weight ∧
        m'.bias = m.bias.map fun b => List.replicate b.length 0) := by
  obtain ⟨m, hm, rfl⟩ := List.mem_map.mp hm'
  refine ⟨m, hm, rfl, ?_, ?_⟩
  · intro hbn
    obtain ⟨cls, w, b⟩ := m
    cases cls
    case batchNorm2d => exact ⟨rfl, rfl⟩
    all_goals simp only [className] at hbn
    all_goals exact absurd hbn (by decide)
  · intro hconv hne
    obtain ⟨cls, w, b⟩ := m
    cases cls
    case conv2d => exact ⟨rfl, rfl⟩
    case avgPool2dWithConv => exact absurd rfl hne
    all_goals simp only [className] at hconv
    all_goals exact absurd hconv (by decide)

theorem weights_init_all_modules_witness :
    ∃ m ∈ [(⟨ModuleClass.conv2d, [5], some [7]⟩ : PModule),
           ⟨ModuleClass.batchNorm2d, [5], some [7]⟩],
      (⟨ModuleClass.conv2d, [5], some [0]⟩ : PModule) = weightsInit id m ∧
      (strContains (className m.cls) "BatchNorm" = true →
        (⟨ModuleClass.conv2d, [5], some [0]⟩ : PModule).weight =
          List.replicate m.weight.length 1 ∧
        (⟨ModuleClass.conv2d, [5], some [0]⟩ : PModule).bias =
          m.bias.map fun b => List.replicate b.length 0) ∧
      (strContains (className m.cls) "Conv" = true →
        className m.cls ≠ "AvgPool2dWithConv" →
        (⟨ModuleClass.conv2d, [5], some [0]⟩ : PModule).weight =
          id m.weight ∧
        (⟨ModuleClass.conv2d, [5], some [0]⟩ : PModule).bias =
          m.bias.map fun b => List.replicate b.length 0) :=
  weights_init_all_modules id
    [⟨ModuleClass.conv2d, [5], some [7]⟩, ⟨ModuleClass.batchNorm2d, [5], some [7]⟩]
    ⟨ModuleClass.conv2d, [5], some [0]⟩ (by decide)

/-- A successful `buildNet` determines the fields of the network from the
configuration (and the residual units from `buildResUnits`). -/
theorem buildNet_ok_elim (cfg : EEGResNetCfg) (n : NetDescr)
    (h : buildNet cfg = .ok n) :
    n.bnormEps = 1/100000 ∧
    n.bnormMomentum = cfg.batchNormAlpha ∧
    n.convNonlin = cfg.activation ∧
    buildResUnits (resPlan cfg.nFirstFilters cfg.nLayersPerBlock).1 =
      .ok n.resUnits ∧
    (∀ m : ℕ, cfg.finalPoolLength = PoolLength.fixed m →
      n.poolDilation =
        some (finalDilationT cfg.nFirstFilters cfg.nLayersPerBlock, 1)) := by
  simp only [buildNet] at h
  by_cases hA : cfg.finalPoolLength = PoolLength.auto ∧ cfg.nTimes = none
  · rw [if_pos hA] at h
    exact absurd h (by simp)
  · rw [if_neg hA] at h
    by_cases hB : cfg.firstFilterLength % 2 ≠ 1
    · rw [if_pos hB] at h
      exact absurd h (by simp)
    · rw [if_neg hB] at h
      cases hu : buildResUnits (resPlan cfg.nFirstFilters cfg.nLayersPerBlock).1 with
      | error e =>
        rw [hu] at h
        exact absurd h (by simp)
      | ok us =>
        rw [hu] at h
        have h' := Except.ok.inj h
        subst h'
        refine ⟨rfl, rfl, rfl, rfl, ?_⟩
        intro m hm
        simp only [hm]
        rfl

/-- The residual units a successful `buildResUnits` returns all keep the
`_ResidualBlock` keyword defaults `EEGResNet` never overrides. -/
theorem buildResUnits_ok_defaults : ∀ (l : List ResSpec) (us : List ResUnitCfg),
    buildResUnits l = .ok us →
    ∀ u ∈ us, u.bnEps = 1/10000 ∧ u.bnMomentum = 1/10 ∧ u.nonlin = Act.elu
  | [], us, h => by
    simp only [buildResUnits] at h
    have h' := Except.ok.inj h
    subst h'
    intro u hu
    exact absurd hu (List.not_mem_nil u)
  | s :: rest, us, h => by
    simp only [buildResUnits] at h
    cases hmk : mkResidualBlock s.inF s.outF s.dilT s.dilC with
    | error e =>
      rw [hmk] at h
      exact absurd h (by simp)
    | ok u0 =>
      rw [hmk] at h
      cases hrest : buildResUnits rest with
      | error e =>
        rw [hrest] at h
        exact absurd h (by simp)
      | ok us0 =>
        rw [hrest] at h
        have h' := Except.ok.inj h
        subst h'
        intro u hu
        rcases List.mem_cons.mp hu with rfl | hmem
        · obtain ⟨h1, h2, h3, -⟩ := mkResidualBlock_ok_elim s.inF s.outF
            s.dilT s.dilC u hmk
          exact ⟨h1, h2, h3⟩
        · exact buildResUnits_ok_defaults rest us0 hrest u hmem

/-- C9: `batch_norm_epsilon` never reaches any layer: two constructions
differing only in it build identical networks, the first batch norm always
uses the hardcoded `eps = 1e-5`, and every residual block's batch norms use
the `_ResidualBlock` default `eps = 1e-4`. -/
theorem batch_norm_epsilon_unused (cfg : EEGResNetCfg) (e1 e2 : ℚ) :
    buildNet { cfg with batchNormEpsilon := e1 } =
      buildNet { cfg with batchNormEpsilon := e2 } ∧
    (∀ n : NetDescr, buildNet cfg = .ok n →
      n.bnormEps = 1/100000 ∧ ∀ u ∈ n.resUnits, u.bnEps = 1/10000) := by
  refine ⟨rfl, ?_⟩
  intro n hn
  obtain ⟨hbn, -, -, hunits, -⟩ := buildNet_ok_elim cfg n hn
  refine ⟨hbn, fun u hu => ?_⟩
  exact (buildResUnits_ok_defaults _ _ hunits u hu).1

theorem batch_norm_epsilon_unused_witness :
    (buildNet
        { nChans := 22, nOutputs := 4, nTimes := some 1000,
          finalPoolLength := PoolLength.auto, nFirstFilters := 2,
          nLayersPerBlock := 1, firstFilterLength := 3, activation := Act.elu,
          splitFirstLayer := true, batchNormAlpha := 1/10,
          batchNormEpsilon := 7 } =
      buildNet
        { nChans := 22, nOutputs := 4, nTimes := some 1000,
          finalPoolLength := PoolLength.auto, nFirstFilters := 2,
          nLayersPerBlock := 1, firstFilterLength := 3, activation := Act.elu,
          splitFirstLayer := true, batchNormAlpha := 1/10,
          batchNormEpsilon := 9 }) ∧
    (∀ n : NetDescr,
      buildNet
        { nChans := 22, nOutputs := 4, nTimes := some 1000,
          finalPoolLength := PoolLength.auto, nFirstFilters := 2,
          nLayersPerBlock := 1, firstFilterLength := 3, activation := Act.elu,
          splitFirstLayer := true, batchNormAlpha := 1/10,
          batchNormEpsilon := 1/10000 } = .ok n →
      n.bnormEps = 1/100000 ∧ ∀ u ∈ n.resUnits, u.bnEps = 1/10000) :=
  batch_norm_epsilon_unused
    { nChans := 22, nOutputs := 4, nTimes := some 1000,
      finalPoolLength := PoolLength.auto, nFirstFilters := 2,
      nLayersPerBlock := 1, firstFilterLength := 3, activation := Act.elu,
      splitFirstLayer := true, batchNormAlpha := 1/10,
      batchNormEpsilon := 1/10000 } 7 9

/-- C10: the `activation` argument only selects `conv_nonlin`: the networks
built from two activation choices agree after overriding that single field,
and every residual block's nonlinearity is the `_ResidualBlock` default
`nn.ELU` regardless of `activation`. -/
theorem activation_only_affects_conv_nonlin (cfg : EEGResNetCfg) (a b : Act) :
    buildNet { cfg with activation := a } =
      Except.map (fun n => { n with convNonlin := a })
        (buildNet { cfg with activation := b }) ∧
    (∀ n : NetDescr, buildNet cfg = .ok n →
      n.convNonlin = cfg.activation ∧
      ∀ u ∈ n.resUnits, u.nonlin = Act.elu) := by
  constructor
  · by_cases hA : cfg.finalPoolLength = PoolLength.auto ∧ cfg.nTimes = none
    · simp only [buildNet, if_pos hA]
      rfl
    · simp only [buildNet, if_neg hA]
      by_cases hB : cfg.firstFilterLength % 2 ≠ 1
      · simp only [if_pos hB]
        rfl
      · simp only [if_neg hB]
        cases hu : buildResUnits (resPlan cfg.nFirstFilters cfg.nLayersPerBlock).1 with
        | error e => rfl
        | ok us => rfl
  · intro n hn
    obtain ⟨-, -, hact, hunits, -⟩ := buildNet_ok_elim cfg n hn
    refine ⟨hact, fun u hu => ?_⟩
    exact (buildResUnits_ok_defaults _ _ hunits u hu).2.2

theorem activation_only_affects_conv_nonlin_witness :
    (buildNet
        { nChans := 22, nOutputs := 4, nTimes := some 1000,
          finalPoolLength := PoolLength.auto, nFirstFilters := 2,
          nLayersPerBlock := 1, firstFilterLength := 3,
          activation := Act.relu, splitFirstLayer := true,
          batchNormAlpha := 1/10, batchNormEpsilon := 1/10000 } =
      Except.map (fun n => { n with convNonlin := Act.relu })
        (buildNet
          { nChans := 22, nOutputs := 4, nTimes := some 1000,
            finalPoolLength := PoolLength.auto, nFirstFilters := 2,
            nLayersPerBlock := 1, firstFilterLength := 3,
            activation := Act.elu, splitFirstLayer := true,
            batchNormAlpha := 1/10, batchNormEpsilon := 1/10000 })) ∧
    (∀ n : NetDescr,
      buildNet
        { nChans := 22, nOutputs := 4, nTimes := some 1000,
          finalPoolLength := PoolLength.auto, nFirstFilters := 2,
          nLayersPerBlock := 1, firstFilterLength := 3,
          activation := Act.identity, splitFirstLayer := true,
          batchNormAlpha := 1/10, batchNormEpsilon := 1/10000 } = .ok n →
      n.convNonlin = Act.identity ∧
      ∀ u ∈ n.resUnits, u.nonlin = Act.elu) :=
  activation_only_affects_conv_nonlin
    { nChans := 22, nOutputs := 4, nTimes := some 1000,
      finalPoolLength := PoolLength.auto, nFirstFilters := 2,
      nLayersPerBlock := 1, firstFilterLength := 3,
      activation := Act.identity, splitFirstLayer := true,
      batchNormAlpha := 1/10, batchNormEpsilon := 1/10000 } Act.relu Act.elu

end EEGResNetModel
